import Mathlib

/-!
Verification of the chroma-key parameter-resolution and color-detection
subsystem of the video-background-removal service.

The embedding below translates the pure decision logic of the source:

* `rgbToHex`, presets, `ChromaKeySettings`
  (src/video/interfaces/chroma-key-settings.interface.ts);
* `getSettings` and the per-pass settings flow of `processChromaKey`
  (ffmpeg.service.ts);
* the per-frame dominant-color detector `analyzeFrameColors` and the
  aggregate detector `findDominantChromaColor` (ffmpeg.service.ts);
* the duration probe `getVideoDuration` and the process runner
  `runFfmpegCommand` (ffmpeg.service.ts), modelled over the outcome of the
  spawned process;
* the settings-building and temp-file-cleanup control flow of
  `processVideo` (video.service.ts).

JavaScript `number` values that hold pixel channels or filter parameters are
modelled as `Int` / `Rat`; the decimal literals appearing in the source
(0.01, 0.08, 0.3, 0.1) are exact in `Rat` and are only ever copied, never
computed with.  JavaScript `Map` iteration order is insertion order, so maps
keyed by strings produced from numeric components are modelled as
association lists over the decoded key (the string encodings used by the
source are injective in the components).
-/

namespace VideoBg

/-- RGB color representation (interfaces: `RGB { r, g, b: number }`). -/
structure RGB where
  r : Int
  g : Int
  b : Int
deriving DecidableEq, Repr

/-- `ChromaKeySettings { color: string; similarity: number; blend: number }`. -/
structure ChromaKeySettings where
  color : String
  similarity : Rat
  blend : Rat
deriving DecidableEq, Repr

/-- `Partial<ChromaKeySettings>`: each field either absent or present. In the
source every partial object is built only by conditional assignment, so a
present field is never `undefined`. -/
structure PartialSettings where
  color : Option String := none
  similarity : Option Rat := none
  blend : Option Rat := none
deriving DecidableEq, Repr

/-- The empty override set `{}`. -/
def PartialSettings.empty : PartialSettings := {}

/-- `GREEN_SCREEN_SETTINGS = { color: '00FF00', similarity: 0.01, blend: 0.08 }`
(current interface file, the one exporting `rgbToHex`). -/
def GREEN_SCREEN_SETTINGS : ChromaKeySettings :=
  { color := "00FF00", similarity := 0.01, blend := 0.08 }

/-- `BLUE_SCREEN_SETTINGS = { color: '0000FF', similarity: 0.3, blend: 0.1 }`. -/
def BLUE_SCREEN_SETTINGS : ChromaKeySettings :=
  { color := "0000FF", similarity := 0.3, blend := 0.1 }

/-- `colorType: 'green' | 'blue'`. -/
inductive ColorType
  | green
  | blue
deriving DecidableEq, Repr

/-- Lower-case hexadecimal digit character, as produced by JavaScript
`Number.prototype.toString(16)` (digits `0`-`9` then `a`-`f`). -/
def hexChar (n : Nat) : Char :=
  if n < 10 then Char.ofNat (48 + n) else Char.ofNat (87 + n)

/-- `toHex(n) = Math.min(255, Math.max(0, n)).toString(16).padStart(2, '0')`:
clamp to [0,255], render in base 16, left-pad to two characters. The result
is the two-character (lower-case) list. -/
def toHexByte (v : Int) : List Char :=
  let c := (min 255 (max 0 v)).toNat
  if c < 16 then ['0', hexChar c] else [hexChar (c / 16), hexChar (c % 16)]

/-- JavaScript `String.prototype.toUpperCase()` restricted to the ASCII
strings this code produces. -/
def jsToUpperCase (s : String) : String := String.mk (s.data.map Char.toUpper)

/-- `rgbToHex(rgb) = `${toHex(r)}${toHex(g)}${toHex(b)}`.toUpperCase()`. -/
def rgbToHex (p : RGB) : String :=
  jsToUpperCase (String.mk (toHexByte p.r ++ toHexByte p.g ++ toHexByte p.b))

/-- JavaScript object spread `{ ...base, ...overrides }` where `overrides` is a
`Partial<ChromaKeySettings>`: a field present in the overrides wins, an
absent field keeps the base value. -/
def spreadSettings (base : ChromaKeySettings) (ov : PartialSettings) :
    ChromaKeySettings :=
  { color := ov.color.getD base.color
    similarity := ov.similarity.getD base.similarity
    blend := ov.blend.getD base.blend }

/-- `colorType === 'green' ? GREEN_SCREEN_SETTINGS : BLUE_SCREEN_SETTINGS`. -/
def presetFor : ColorType → ChromaKeySettings
  | .green => GREEN_SCREEN_SETTINGS
  | .blue => BLUE_SCREEN_SETTINGS

/-- `getSettings(colorType, overrides?)` from ffmpeg.service.ts: pick the
preset for the color type and spread the (possibly undefined) overrides over
it. -/
def getSettings (colorType : ColorType) (overrides : Option PartialSettings) :
    ChromaKeySettings :=
  spreadSettings (presetFor colorType) (overrides.getD {})

/-! ### Dominant-color detection (`analyzeFrameColors`, `findDominantChromaColor`) -/

/-- Skip test of `analyzeFrameColors`: a pixel is skipped when all three
channels are below 30 (near-black) or all three are above 240 (near-white). -/
def isSkipped (p : RGB) : Bool :=
  (p.r < 30 && p.g < 30 && p.b < 30) || (p.r > 240 && p.g > 240 && p.b > 240)

/-- One channel of the quantization step:
`Math.floor(v / quantizeFactor) * quantizeFactor` with `quantizeFactor = 8`. -/
def quantizeChannel (v : Int) : Int := (Int.fdiv v 8) * 8

/-- Quantization of a whole pixel to its voting bucket. -/
def quantizeRGB (p : RGB) : RGB :=
  { r := quantizeChannel p.r, g := quantizeChannel p.g, b := quantizeChannel p.b }

/-- Insertion-ordered counting map update: `map.get(key).count++` when the key
is present, `map.set(key, 1)` (appended at the end, as a JavaScript `Map`
does) otherwise. -/
def bump {α : Type} [DecidableEq α] : List (α × Nat) → α → List (α × Nat)
  | [], k => [(k, 1)]
  | (k', n) :: rest, k =>
      if k' = k then (k', n + 1) :: rest else (k', n) :: bump rest k

/-- The pixel loop of `analyzeFrameColors`, threading the running `colorMap`:
skip excluded pixels, quantize the rest, and count occurrences per quantized
key.  (The source keys the map by the string `${qR},${qG},${qB}`, an
injective encoding of the quantized triple, so the map is modelled keyed by
the triple itself.) -/
def colorMapFrom (m : List (RGB × Nat)) : List RGB → List (RGB × Nat)
  | [] => m
  | p :: rest =>
      if isSkipped p then colorMapFrom m rest
      else colorMapFrom (bump m (quantizeRGB p)) rest

/-- The finished `colorMap` of `analyzeFrameColors` for a frame, starting from
the empty map. -/
def colorMap (pixels : List RGB) : List (RGB × Nat) := colorMapFrom [] pixels

/-- First entry of an insertion-ordered counting map whose count strictly
exceeds every earlier running maximum — the scan
`let best = null, bestCount = 0; for (entry of map) if (count > bestCount) ...`
used verbatim in `findDominantChromaColor`, and equivalently what
`Array.sort((a, b) => b.count - a.count)[0]` selects in `analyzeFrameColors`
(JavaScript's sort is stable, so index 0 is the first-inserted entry carrying
the maximal count). -/
def firstMaxFrom {α : Type} (best : Option α) (bestCount : Nat) :
    List (α × Nat) → Option α
  | [] => best
  | (k, n) :: rest =>
      if bestCount < n then firstMaxFrom (some k) n rest
      else firstMaxFrom best bestCount rest

/-- Entry point of the first-maximum scan: `best = null`, `bestCount = 0`. -/
def firstMax {α : Type} (m : List (α × Nat)) : Option α := firstMaxFrom none 0 m

/-- `analyzeFrameColors` on the decoded pixels of one frame (the sequence of
`(data[i], data[i+1], data[i+2])` triples read at stride `info.channels`):
tally quantized non-extreme pixels and return the most frequent bucket, or
nothing when no pixel qualified. -/
def analyzeFrameColors (pixels : List RGB) : Option RGB :=
  firstMax (colorMap pixels)

/-- The fixed sampling percentages of `findDominantChromaColor`. -/
def samplePercentages : List Nat := [5, 25, 50]

/-- Sampling timestamp used by `extractFrame`:
`timestamp = duration * percentage / 100`. -/
def sampleTimestamp (duration : Rat) (percentage : Nat) : Rat :=
  duration * percentage / 100

/-- The loop building the `colorCounts` tally of `findDominantChromaColor`,
threading the running map: for each sampled frame's detection result (in
sampling order), a detected color votes for its upper-case hex string;
frames with no detected color contribute nothing. -/
def colorCountsFrom (m : List (String × Nat)) :
    List (Option RGB) → List (String × Nat)
  | [] => m
  | det :: rest =>
      match det with
      | some c => colorCountsFrom (bump m (rgbToHex c)) rest
      | none => colorCountsFrom m rest

/-- The finished `colorCounts` map, starting from the empty map. -/
def colorCounts (detections : List (Option RGB)) : List (String × Nat) :=
  colorCountsFrom [] detections

/-- The pure data flow of `findDominantChromaColor`, given the decoded pixels
of the frame sampled at each percentage: analyze the frames extracted at 5%,
25% and 50%, tally the hex votes, and return the hex with the highest count
(first seen wins ties), or nothing if no frame yielded a color. -/
def findDominantChromaColor (frameAt : Nat → List RGB) : Option String :=
  firstMax (colorCounts (samplePercentages.map (fun p => analyzeFrameColors (frameAt p))))

/-! ### Request-level settings flow (`processVideo`, video.service.ts) -/

/-- The fields of `ProcessVideoDto` consumed by the settings flow.  A missing
optional field is `none`; the source tests `similarity`/`blend`/`mask_*`
with `!== undefined` (so present-but-zero counts as present) and `color`
with plain truthiness. -/
structure ProcessVideoDto where
  colorType : ColorType
  color : Option String := none
  similarity : Option Rat := none
  blend : Option Rat := none
  mask_similarity : Option Rat := none
  mask_blend : Option Rat := none
  autoDetectColor : Bool := false
deriving DecidableEq, Repr

/-- JavaScript truthiness of a `string | null | undefined` value: `null`,
`undefined` and the empty string are falsy. -/
def truthyString : Option String → Option String
  | some s => if s = "" then none else some s
  | none => none

/-- The local `detectedColor` of `processVideo`: set only when
`dto.autoDetectColor` is on and `findDominantChromaColor` returned a truthy
value (`detection` is what that call returned). -/
def detectedColor (dto : ProcessVideoDto) (detection : Option String) :
    Option String :=
  if dto.autoDetectColor then truthyString detection else none

/-- The color override written into both per-pass partials:
`if (detectedColor) { color = detectedColor } else if (dto.color)
{ color = dto.color.toUpperCase() }` — otherwise the field stays absent. -/
def colorOverride (userColor : Option String) (detected : Option String) :
    Option String :=
  match detected with
  | some d => some d
  | none =>
      match truthyString userColor with
      | some c => some (jsToUpperCase c)
      | none => none

/-- The `resultSettings` partial built by `processVideo`: the shared color
override plus the result-scoped `similarity`/`blend` fields. -/
def resultOverrides (dto : ProcessVideoDto) (detection : Option String) :
    PartialSettings :=
  { color := colorOverride dto.color (detectedColor dto detection)
    similarity := dto.similarity
    blend := dto.blend }

/-- The `maskSettings` partial built by `processVideo`: the shared color
override plus the mask-scoped `mask_similarity`/`mask_blend` fields. -/
def maskOverrides (dto : ProcessVideoDto) (detection : Option String) :
    PartialSettings :=
  { color := colorOverride dto.color (detectedColor dto detection)
    similarity := dto.mask_similarity
    blend := dto.mask_blend }

/-- The fully resolved result-pass settings: `processChromaKey` calls
`getSettings(colorType, resultSettings)`. -/
def resolvedResultSettings (dto : ProcessVideoDto) (detection : Option String) :
    ChromaKeySettings :=
  getSettings dto.colorType (some (resultOverrides dto detection))

/-- The fully resolved mask-pass settings: `processChromaKey` calls
`getSettings(colorType, maskSettings)` with its own override set. -/
def resolvedMaskSettings (dto : ProcessVideoDto) (detection : Option String) :
    ChromaKeySettings :=
  getSettings dto.colorType (some (maskOverrides dto detection))

/-! ### Duration probe and process runner -/

/-- Observable outcome of the `ffprobe` invocation in `getVideoDuration`.
`exited code parsed` is the `close` event: `parsed` stands for
`parseFloat(output.trim())`, with `none` for `NaN` (unparsable output). -/
inductive ProbeOutcome
  | spawnFailed
  | exited (code : Int) (parsed : Option Rat)
deriving DecidableEq, Repr

/-- `getVideoDuration`, as a function of the probe outcome: on exit code 0
resolve with `parseFloat(output.trim()) || 5` (falsy `NaN` and `0` become the
5-second fallback); on any non-zero exit or spawn error resolve with 5.  It
resolves in every case — no branch rejects. -/
def getVideoDuration : ProbeOutcome → Rat
  | .spawnFailed => 5
  | .exited code parsed =>
      if code = 0 then
        match parsed with
        | some v => if v = 0 then 5 else v
        | none => 5
      else 5

/-- Observable outcome of one spawned `ffmpeg` run in `runFfmpegCommand`:
either the spawn itself errored, or the process closed with an exit code and
the captured stderr text. -/
inductive SpawnOutcome
  | spawnFailed (message : String)
  | exited (code : Int) (stderrText : String)
deriving DecidableEq, Repr

/-- The message of the rejection error on non-zero exit:
`` `FFmpeg exited with code ${code}: ${stderr}` ``. -/
def ffmpegExitMessage (code : Int) (stderrText : String) : String :=
  "FFmpeg exited with code " ++ toString code ++ ": " ++ stderrText

/-- `runFfmpegCommand`, as a function of the spawn outcome: resolve on exit
code 0, reject with the code-and-stderr error on non-zero exit, reject with
the spawn error itself on spawn failure.  The command is run once; no retry
path exists. -/
def runFfmpegCommand : SpawnOutcome → Except String Unit
  | .spawnFailed msg => .error msg
  | .exited code stderrText =>
      if code = 0 then .ok () else .error (ffmpegExitMessage code stderrText)

/-! ### Exception/cleanup control flow

The `try`/`finally` structure of `findDominantChromaColor` and
`processVideo` is embedded explicitly: each external step is an oracle that
either returns a value or throws (`Except`), and the run records which temp
files were created, which ones the `finally` block attempts to unlink, and
which unlinks succeed (`unlinkFails` says which `fs.unlink` calls would
throw; the source wraps each in `try { } catch { }`). -/

/-- Oracles for the effectful steps of `findDominantChromaColor`. -/
structure DetectStepEnv where
  /-- `extractFrame(inputPath, percentage)`: the created frame path, or the
  error it throws. -/
  extractOutcome : Nat → Except String String
  /-- `analyzeFrameColors(framePath, colorType)`: the detected color (if any),
  or the error it throws. -/
  analyzeOutcome : String → Except String (Option RGB)
  /-- Which `fs.unlink` calls would throw. -/
  unlinkFails : String → Bool

/-- Record of one `findDominantChromaColor` run. -/
structure DetectRun where
  result : Except String (Option String)
  createdFrames : List String
  unlinkAttempts : List String
  deletedFrames : List String

/-- The `try` block of `findDominantChromaColor`: for each percentage,
extract the frame (pushing its path onto `framePaths` on success), analyze
it, and vote for the detected color's hex; the first thrown error aborts the
loop.  Returns the outcome together with the frame paths created so far. -/
def detectTryBlock (extract : Nat → Except String String)
    (analyze : String → Except String (Option RGB)) :
    List Nat → List String → List (String × Nat) →
      Except String (List (String × Nat)) × List String
  | [], framePaths, votes => (.ok votes, framePaths)
  | p :: rest, framePaths, votes =>
      match extract p with
      | .error e => (.error e, framePaths)
      | .ok framePath =>
          match analyze framePath with
          | .error e => (.error e, framePaths ++ [framePath])
          | .ok (some c) =>
              detectTryBlock extract analyze rest (framePaths ++ [framePath])
                (bump votes (rgbToHex c))
          | .ok none =>
              detectTryBlock extract analyze rest (framePaths ++ [framePath]) votes

/-- Whole-call model of `findDominantChromaColor`: run the `try` block over
the three sampling percentages, then — success or error alike — the
`finally` block attempts to unlink every path in `framePaths`, swallowing
unlink failures. -/
def findDominantChromaColorRun (env : DetectStepEnv) : DetectRun :=
  let scan := detectTryBlock env.extractOutcome env.analyzeOutcome
    samplePercentages [] []
  { result :=
      match scan.1 with
      | .ok votes => .ok (firstMax votes)
      | .error e => .error e
    createdFrames := scan.2
    unlinkAttempts := scan.2
    deletedFrames := scan.2.filter (fun f => !(env.unlinkFails f)) }

/-- Oracles and request data for the cleanup flow of `processVideo`. -/
structure VideoRequestEnv where
  /-- `uploadedFile?.path`. -/
  uploadedFilePath : Option String
  /-- `dto.videoUrl`. -/
  videoUrl : Option String
  /-- `downloadVideo(url, sessionId)`: the temp file path it returns, or the
  `BadRequestException` it throws. -/
  downloadOutcome : Except String String
  /-- Everything after input resolution (color detection, `processChromaKey`,
  URL building) as a function of the input path: the response data, or the
  first error thrown. -/
  pipelineOutcome : String → Except String (String × String)
  /-- Which `fs.unlink` calls would throw. -/
  unlinkFails : String → Bool

/-- Record of one `processVideo` run. -/
structure VideoRun where
  result : Except String (String × String)
  /-- `tempInputPath`: set only when a download completed. -/
  createdTempInput : Option String
  unlinkAttempts : List String
  deletedFiles : List String

/-- Whole-call model of `processVideo`'s resource handling: the `try` block
resolves the input (uploaded file, else downloaded URL, else a
`BadRequestException`) and runs the rest of the pipeline; the `finally`
block then attempts to unlink the downloaded temp input (if one was created)
and the uploaded file (if one exists), swallowing unlink failures, on every
exit path. -/
def processVideoRun (env : VideoRequestEnv) : VideoRun :=
  let tryOutcome : Except String (String × String) × Option String :=
    match env.uploadedFilePath with
    | some p => (env.pipelineOutcome p, none)
    | none =>
        match truthyString env.videoUrl with
        | some _ =>
            match env.downloadOutcome with
            | .ok tempPath => (env.pipelineOutcome tempPath, some tempPath)
            | .error e => (.error e, none)
        | none => (.error "Either video file or videoUrl must be provided", none)
  let attempts := tryOutcome.2.toList ++ env.uploadedFilePath.toList
  { result := tryOutcome.1
    createdTempInput := tryOutcome.2
    unlinkAttempts := attempts
    deletedFiles := attempts.filter (fun f => !(env.unlinkFails f)) }

/-! ### Specification-side helpers used in theorem statements -/

/-- Count of a key in an insertion-ordered counting map (keys built by `bump`
are unique; `0` for an absent key). -/
def lookupCount {α : Type} [DecidableEq α] (k : α) : List (α × Nat) → Nat
  | [] => 0
  | (k', n) :: rest => if k' = k then n else lookupCount k rest

/-- Number of occurrences of a value in a list. -/
def countKey {α : Type} [DecidableEq α] (k : α) : List α → Nat
  | [] => 0
  | x :: rest => (if x = k then 1 else 0) + countKey k rest

/-- The sixteen upper-case hexadecimal digit characters. -/
def upperHexDigits : List Char :=
  ['0', '1', '2', '3', '4', '5', '6', '7', '8', '9', 'A', 'B', 'C', 'D', 'E', 'F']

/-- Whether a character is an upper-case hexadecimal digit. -/
def isUpperHexDigit (c : Char) : Bool := upperHexDigits.contains c

/-- A pixel whose three channels are bytes, as produced by decoding a frame's
raw buffer. -/
def byteRange (p : RGB) : Prop :=
  0 ≤ p.r ∧ p.r ≤ 255 ∧ 0 ≤ p.g ∧ p.g ≤ 255 ∧ 0 ≤ p.b ∧ p.b ≤ 255

instance (p : RGB) : Decidable (byteRange p) := by
  unfold byteRange
  exact inferInstance

/-! ### Lemmas about the first-maximum scan and the counting maps -/

theorem firstMaxFrom_ne_none {α : Type} (x : α) (c : Nat) (m : List (α × Nat)) :
    firstMaxFrom (some x) c m ≠ none := by
  induction m generalizing x c with
  | nil => simp [firstMaxFrom]
  | cons e rest ih =>
      obtain ⟨k, n⟩ := e
      by_cases h : c < n <;> simp only [firstMaxFrom, h, if_pos, if_neg] <;>
        simp [h] <;> apply ih

theorem firstMaxFrom_eq_some {α : Type} {m : List (α × Nat)} {best : Option α}
    {c : Nat} {k : α} (h : firstMaxFrom best c m = some k) :
    (best = some k ∧ ∀ e ∈ m, e.2 ≤ c)
    ∨ ∃ mPre n mPost, m = mPre ++ (k, n) :: mPost ∧ c < n
        ∧ (∀ e ∈ mPre, e.2 < n) ∧ (∀ e ∈ mPost, e.2 ≤ n) := by
  induction m generalizing best c with
  | nil => exact Or.inl ⟨h, by simp⟩
  | cons e rest ih =>
      obtain ⟨k', n'⟩ := e
      simp only [firstMaxFrom] at h
      by_cases hc : c < n'
      · rw [if_pos hc] at h
        rcases ih h with ⟨hbest, hall⟩ | ⟨mPre, n, mPost, heq, hlt, hpre, hpost⟩
        · injection hbest with hkk
          subst hkk
          exact Or.inr ⟨[], n', rest, by simp, hc, by simp, hall⟩
        · refine Or.inr ⟨(k', n') :: mPre, n, mPost, by simp [heq],
            lt_trans hc hlt, ?_, hpost⟩
          intro e he
          rcases List.mem_cons.mp he with rfl | he
          · exact hlt
          · exact hpre e he
      · rw [if_neg hc] at h
        rcases ih h with ⟨hbest, hall⟩ | ⟨mPre, n, mPost, heq, hlt, hpre, hpost⟩
        · refine Or.inl ⟨hbest, ?_⟩
          intro e he
          rcases List.mem_cons.mp he with rfl | he
          · omega
          · exact hall e he
        · refine Or.inr ⟨(k', n') :: mPre, n, mPost, by simp [heq], hlt, ?_, hpost⟩
          intro e he
          rcases List.mem_cons.mp he with rfl | he
          · omega
          · exact hpre e he

/-- A successful first-maximum scan names an entry that carries a positive
count, strictly dominates every earlier entry, and weakly dominates every
later one. -/
theorem firstMax_eq_some {α : Type} {m : List (α × Nat)} {k : α}
    (h : firstMax m = some k) :
    ∃ mPre n mPost, m = mPre ++ (k, n) :: mPost ∧ 0 < n
      ∧ (∀ e ∈ mPre, e.2 < n) ∧ (∀ e ∈ mPost, e.2 ≤ n) := by
  rcases firstMaxFrom_eq_some h with ⟨hbest, _⟩ | hex
  · exact absurd hbest (by simp)
  · exact hex

/-- The chosen entry is a member carrying the maximal count. -/
theorem firstMax_is_max {α : Type} {m : List (α × Nat)} {k : α}
    (h : firstMax m = some k) :
    ∃ n, (k, n) ∈ m ∧ 0 < n ∧ ∀ e ∈ m, e.2 ≤ n := by
  obtain ⟨mPre, n, mPost, heq, hpos, hpre, hpost⟩ := firstMax_eq_some h
  refine ⟨n, by simp [heq], hpos, ?_⟩
  intro e he
  rw [heq] at he
  rcases List.mem_append.mp he with he | he
  · exact le_of_lt (hpre e he)
  · rcases List.mem_cons.mp he with rfl | he
    · exact le_refl _
    · exact hpost e he

theorem firstMaxFrom_eq_none {α : Type} {m : List (α × Nat)} {best : Option α}
    {c : Nat} (h : firstMaxFrom best c m = none) : ∀ e ∈ m, e.2 ≤ c := by
  induction m generalizing best c with
  | nil => simp
  | cons e rest ih =>
      obtain ⟨k', n'⟩ := e
      simp only [firstMaxFrom] at h
      by_cases hc : c < n'
      · rw [if_pos hc] at h
        exact absurd h (firstMaxFrom_ne_none k' n' rest)
      · rw [if_neg hc] at h
        intro e he
        rcases List.mem_cons.mp he with rfl | he
        · omega
        · exact ih h e he

/-- A failed scan means every count was zero. -/
theorem firstMax_eq_none {α : Type} {m : List (α × Nat)}
    (h : firstMax m = none) : ∀ e ∈ m, e.2 = 0 := by
  intro e he
  have := firstMaxFrom_eq_none h e he
  omega

theorem lookupCount_bump {α : Type} [DecidableEq α] (m : List (α × Nat))
    (k k' : α) :
    lookupCount k (bump m k')
      = lookupCount k m + (if k' = k then 1 else 0) := by
  induction m with
  | nil => by_cases h : k' = k <;> simp [bump, lookupCount, h]
  | cons e rest ih =>
      obtain ⟨k₀, n⟩ := e
      by_cases h0 : k₀ = k'
      · subst h0
        by_cases h : k₀ = k <;> simp [bump, lookupCount, h]
      · by_cases h : k₀ = k
        · subst h
          have : ¬k' = k₀ := fun hh => h0 hh.symm
          simp [bump, lookupCount, h0, this]
        · simp [bump, lookupCount, h0, h, ih]

theorem mem_bump {α : Type} [DecidableEq α] {m : List (α × Nat)} {k' : α}
    {e : α × Nat} (h : e ∈ bump m k') :
    e.1 = k' ∨ ∃ n, (e.1, n) ∈ m := by
  induction m with
  | nil =>
      simp [bump] at h
      subst h
      exact Or.inl rfl
  | cons e₀ rest ih =>
      obtain ⟨k₀, n₀⟩ := e₀
      by_cases h0 : k₀ = k'
      · simp [bump, h0] at h
        rcases h with h | h
        · subst h
          exact Or.inl rfl
        · exact Or.inr ⟨e.2, by simp [h]⟩
      · simp [bump, h0] at h
        rcases h with h | h
        · exact Or.inr ⟨n₀, by simp [h]⟩
        · rcases ih h with h1 | ⟨n, h1⟩
          · exact Or.inl h1
          · exact Or.inr ⟨n, by simp [h1]⟩

theorem bump_pos {α : Type} [DecidableEq α] {m : List (α × Nat)}
    (hm : ∀ e ∈ m, 0 < e.2) (k' : α) : ∀ e ∈ bump m k', 0 < e.2 := by
  induction m with
  | nil =>
      intro e he
      simp [bump] at he
      simp [he]
  | cons e₀ rest ih =>
      obtain ⟨k₀, n₀⟩ := e₀
      intro e he
      by_cases h0 : k₀ = k'
      · simp [bump, h0] at he
        rcases he with he | he
        · simp [he]
        · exact hm e (List.mem_cons.mpr (Or.inr he))
      · simp [bump, h0] at he
        rcases he with he | he
        · subst he
          exact hm (k₀, n₀) (by simp)
        · exact ih (fun x hx => hm x (List.mem_cons.mpr (Or.inr hx))) e he

theorem colorMapFrom_all_skipped {pixels : List RGB} (m : List (RGB × Nat))
    (h : ∀ p ∈ pixels, isSkipped p = true) : colorMapFrom m pixels = m := by
  induction pixels generalizing m with
  | nil => rfl
  | cons p rest ih =>
      have hp := h p (by simp)
      simp only [colorMapFrom, hp, if_pos]
      exact ih _ (fun q hq => h q (by simp [hq]))

theorem lookupCount_colorMapFrom (pixels : List RGB) (m : List (RGB × Nat))
    (k : RGB) :
    lookupCount k (colorMapFrom m pixels)
      = lookupCount k m
        + countKey k ((pixels.filter (fun p => !isSkipped p)).map quantizeRGB) := by
  induction pixels generalizing m with
  | nil => simp [colorMapFrom, countKey]
  | cons p rest ih =>
      by_cases hs : isSkipped p
      · simp [colorMapFrom, hs, ih]
      · simp only [colorMapFrom, hs, Bool.false_eq_true, if_false,
          List.filter_cons, Bool.not_false, if_true, List.map_cons]
        rw [ih, lookupCount_bump]
        simp only [countKey]
        by_cases hq : quantizeRGB p = k <;> simp [hq] <;> omega

theorem mem_colorMapFrom {pixels : List RGB} {m : List (RGB × Nat)}
    {e : RGB × Nat} (h : e ∈ colorMapFrom m pixels) :
    (∃ n, (e.1, n) ∈ m)
    ∨ ∃ p ∈ pixels, isSkipped p = false ∧ quantizeRGB p = e.1 := by
  induction pixels generalizing m with
  | nil => exact Or.inl ⟨e.2, by simpa [colorMapFrom] using h⟩
  | cons p rest ih =>
      by_cases hs : isSkipped p
      · simp only [colorMapFrom, hs, if_pos] at h
        rcases ih h with h1 | ⟨q, hq, h2⟩
        · exact Or.inl h1
        · exact Or.inr ⟨q, by simp [hq], h2⟩
      · simp only [colorMapFrom, hs, Bool.false_eq_true, if_false] at h
        rcases ih h with ⟨n, h1⟩ | ⟨q, hq, h2⟩
        · rcases mem_bump h1 with h2 | ⟨n', h2⟩
          · exact Or.inr ⟨p, by simp, by simpa using hs, h2.symm⟩
          · exact Or.inl ⟨n', h2⟩
        · exact Or.inr ⟨q, by simp [hq], h2⟩

theorem colorMapFrom_pos {pixels : List RGB} {m : List (RGB × Nat)}
    (hm : ∀ e ∈ m, 0 < e.2) : ∀ e ∈ colorMapFrom m pixels, 0 < e.2 := by
  induction pixels generalizing m with
  | nil => simpa [colorMapFrom] using hm
  | cons p rest ih =>
      by_cases hs : isSkipped p
      · simpa only [colorMapFrom, hs, if_pos] using ih hm
      · simpa only [colorMapFrom, hs, Bool.false_eq_true, if_false] using
          ih (bump_pos hm _)

theorem mem_colorCountsFrom {dets : List (Option RGB)}
    {m : List (String × Nat)} {e : String × Nat}
    (h : e ∈ colorCountsFrom m dets) :
    (∃ n, (e.1, n) ∈ m) ∨ ∃ c : RGB, some c ∈ dets ∧ e.1 = rgbToHex c := by
  induction dets generalizing m with
  | nil => exact Or.inl ⟨e.2, by simpa [colorCountsFrom] using h⟩
  | cons det rest ih =>
      cases det with
      | none =>
          simp only [colorCountsFrom] at h
          rcases ih h with h1 | ⟨c, hc, h2⟩
          · exact Or.inl h1
          · exact Or.inr ⟨c, by simp [hc], h2⟩
      | some c₀ =>
          simp only [colorCountsFrom] at h
          rcases ih h with ⟨n, h1⟩ | ⟨c, hc, h2⟩
          · rcases mem_bump h1 with h2 | ⟨n', h2⟩
            · exact Or.inr ⟨c₀, by simp, h2⟩
            · exact Or.inl ⟨n', h2⟩
          · exact Or.inr ⟨c, by simp [hc], h2⟩

theorem colorCountsFrom_all_none {dets : List (Option RGB)}
    (m : List (String × Nat)) (h : ∀ d ∈ dets, d = none) :
    colorCountsFrom m dets = m := by
  induction dets generalizing m with
  | nil => rfl
  | cons det rest ih =>
      have hd := h det (by simp)
      subst hd
      exact ih _ (fun d hd => h d (by simp [hd]))

theorem lookupCount_colorCountsFrom (dets : List (Option RGB))
    (m : List (String × Nat)) (k : String) :
    lookupCount k (colorCountsFrom m dets)
      = lookupCount k m
        + countKey k (dets.filterMap (fun d => d.map rgbToHex)) := by
  induction dets generalizing m with
  | nil => simp [colorCountsFrom, countKey]
  | cons det rest ih =>
      cases det with
      | none => simp [colorCountsFrom, ih]
      | some c =>
          simp only [colorCountsFrom, List.filterMap_cons, Option.map_some]
          rw [ih, lookupCount_bump]
          simp only [countKey]
          by_cases hq : rgbToHex c = k <;> simp [hq] <;> omega

/-! ### Lemmas about quantization and hex rendering -/

theorem quantizeChannel_spec {v : Int} (h0 : 0 ≤ v) (h255 : v ≤ 255) :
    8 ∣ quantizeChannel v ∧ 0 ≤ quantizeChannel v ∧ quantizeChannel v ≤ 248 := by
  unfold quantizeChannel
  rw [Int.fdiv_eq_ediv v (by norm_num)]
  refine ⟨dvd_mul_left 8 (v / 8), ?_, ?_⟩
  · exact mul_nonneg (Int.ediv_nonneg h0 (by norm_num)) (by norm_num)
  · have h1 : v / 8 * 8 ≤ v := Int.ediv_mul_le v (by norm_num)
    omega

theorem hexChar_upperHex : ∀ m : Fin 16,
    isUpperHexDigit ((hexChar m.1).toUpper) = true := by decide

theorem hexChar_toUpper_eq_F : ∀ m : Fin 16,
    (hexChar m.1).toUpper = 'F' → m.1 = 15 := by decide

theorem toHexByte_length (v : Int) : (toHexByte v).length = 2 := by
  unfold toHexByte
  by_cases h : (min 255 (max 0 v)).toNat < 16 <;> simp [h]

theorem clamp_le_255 (v : Int) : (min 255 (max 0 v)).toNat ≤ 255 := by
  have h : min 255 (max 0 v) ≤ 255 := min_le_left _ _
  omega

theorem toHexByte_upperHex (v : Int) :
    ((toHexByte v).map Char.toUpper).all isUpperHexDigit = true := by
  have hle := clamp_le_255 v
  unfold toHexByte
  by_cases h : (min 255 (max 0 v)).toNat < 16
  · simp only [h, if_pos, List.map_cons, List.map_nil, List.all_cons,
      List.all_nil, Bool.and_true, Bool.and_eq_true]
    exact ⟨by decide, hexChar_upperHex ⟨_, h⟩⟩
  · have h1 : (min 255 (max 0 v)).toNat / 16 < 16 := by omega
    have h2 : (min 255 (max 0 v)).toNat % 16 < 16 := Nat.mod_lt _ (by norm_num)
    simp only [h, if_false, List.map_cons, List.map_nil, List.all_cons,
      List.all_nil, Bool.and_true, Bool.and_eq_true]
    exact ⟨hexChar_upperHex ⟨_, h1⟩, hexChar_upperHex ⟨_, h2⟩⟩

theorem toHexByte_ne_FF {v : Int} (h0 : 0 ≤ v) (h248 : v ≤ 248) :
    (toHexByte v).map Char.toUpper ≠ ['F', 'F'] := by
  have hmin : min 255 (max 0 v) = v := by
    rw [max_eq_right h0]
    exact min_eq_right (by omega)
  unfold toHexByte
  rw [hmin]
  have hc248 : v.toNat ≤ 248 := by omega
  by_cases h : v.toNat < 16
  · simp only [h, if_pos, List.map_cons, List.map_nil]
    intro hcontra
    exact absurd (List.cons.inj hcontra).1 (by decide)
  · simp only [h, if_false, List.map_cons, List.map_nil]
    intro hcontra
    obtain ⟨h1, h2⟩ := List.cons.inj hcontra
    obtain ⟨h2, -⟩ := List.cons.inj h2
    have e1 : v.toNat / 16 = 15 := hexChar_toUpper_eq_F ⟨_, by omega⟩ h1
    have e2 : v.toNat % 16 = 15 :=
      hexChar_toUpper_eq_F ⟨_, Nat.mod_lt _ (by norm_num)⟩ h2
    omega

theorem rgbToHex_data (p : RGB) :
    (rgbToHex p).data
      = (toHexByte p.r).map Char.toUpper ++ (toHexByte p.g).map Char.toUpper
        ++ (toHexByte p.b).map Char.toUpper := by
  simp [rgbToHex, jsToUpperCase]

theorem rgbToHex_ne_presets {c : RGB}
    (_hr : 0 ≤ c.r ∧ c.r ≤ 248) (hg : 0 ≤ c.g ∧ c.g ≤ 248)
    (hb : 0 ≤ c.b ∧ c.b ≤ 248) :
    rgbToHex c ≠ "00FF00" ∧ rgbToHex c ≠ "0000FF" := by
  constructor
  · intro h
    have hd := congrArg String.data h
    rw [rgbToHex_data] at hd
    have hdd : ("00FF00" : String).data = ['0', '0'] ++ ['F', 'F'] ++ ['0', '0'] :=
      rfl
    rw [hdd] at hd
    obtain ⟨h12, h3⟩ := List.append_inj hd (by simp [toHexByte_length])
    obtain ⟨h1, h2⟩ := List.append_inj h12 (by simp [toHexByte_length])
    exact toHexByte_ne_FF hg.1 hg.2 h2
  · intro h
    have hd := congrArg String.data h
    rw [rgbToHex_data] at hd
    have hdd : ("0000FF" : String).data = ['0', '0'] ++ ['0', '0'] ++ ['F', 'F'] :=
      rfl
    rw [hdd] at hd
    obtain ⟨h12, h3⟩ := List.append_inj hd (by simp [toHexByte_length])
    exact toHexByte_ne_FF hb.1 hb.2 h3

/-! ### Claims C1-C3: settings resolution -/

/-- C1: mask-pass and result-pass settings are resolved independently.  The
resolved mask settings do not change when only `dto.similarity`/`dto.blend`
(the result-scoped overrides) change, and the resolved result settings do
not change when only `dto.mask_similarity`/`dto.mask_blend` (the mask-scoped
overrides) change — for every request and every detection outcome. -/
theorem settings_pass_independence (dto : ProcessVideoDto)
    (detection : Option String) (s b ms mb : Option Rat) :
    resolvedMaskSettings { dto with similarity := s, blend := b } detection
      = resolvedMaskSettings dto detection
  ∧ resolvedResultSettings { dto with mask_similarity := ms, mask_blend := mb } detection
      = resolvedResultSettings dto detection :=
  ⟨rfl, rfl⟩

/-- C2: `getSettings` returns the field-wise merge of the preset for the
color type with the overrides: every absent field keeps the preset value,
every present field takes the override value. -/
theorem getSettings_merge (ct : ColorType) (ov : PartialSettings) :
    (ov.color = none → (getSettings ct (some ov)).color = (presetFor ct).color)
  ∧ (∀ c, ov.color = some c → (getSettings ct (some ov)).color = c)
  ∧ (ov.similarity = none →
      (getSettings ct (some ov)).similarity = (presetFor ct).similarity)
  ∧ (∀ s, ov.similarity = some s → (getSettings ct (some ov)).similarity = s)
  ∧ (ov.blend = none → (getSettings ct (some ov)).blend = (presetFor ct).blend)
  ∧ (∀ b, ov.blend = some b → (getSettings ct (some ov)).blend = b) := by
  refine ⟨fun h => ?_, fun c h => ?_, fun h => ?_, fun s h => ?_, fun h => ?_,
    fun b h => ?_⟩ <;>
    simp [getSettings, spreadSettings, h]

/-- Witness for `getSettings_merge`: a green-screen request overriding only
the color keeps the preset similarity and takes the overridden color. -/
theorem getSettings_merge_witness :
    (getSettings .green (some { color := some "1A2B3C" })).color = "1A2B3C"
  ∧ (getSettings .green (some { color := some "1A2B3C" })).similarity
      = (presetFor .green).similarity
  ∧ (getSettings .blue (some { blend := some 0.2 })).blend = 0.2 :=
  ⟨(getSettings_merge .green _).2.1 _ rfl,
   (getSettings_merge .green _).2.2.1 rfl,
   (getSettings_merge .blue _).2.2.2.2.2 _ rfl⟩

/-- C3: color precedence is applied identically to both passes.  The mask and
result colors always agree; when auto-detection was requested and succeeded
both use the detected color (whatever `dto.color` holds), otherwise a
truthy user color (upper-cased) is used, otherwise the preset default color
for the color type. -/
theorem color_precedence_both_passes (dto : ProcessVideoDto)
    (detection : Option String) :
    (resolvedMaskSettings dto detection).color
      = (resolvedResultSettings dto detection).color
  ∧ (∀ d, dto.autoDetectColor = true → truthyString detection = some d →
      (resolvedResultSettings dto detection).color = d
      ∧ (resolvedMaskSettings dto detection).color = d)
  ∧ (∀ c, detectedColor dto detection = none → truthyString dto.color = some c →
      (resolvedResultSettings dto detection).color = jsToUpperCase c
      ∧ (resolvedMaskSettings dto detection).color = jsToUpperCase c)
  ∧ (detectedColor dto detection = none → truthyString dto.color = none →
      (resolvedResultSettings dto detection).color = (presetFor dto.colorType).color
      ∧ (resolvedMaskSettings dto detection).color = (presetFor dto.colorType).color) := by
  refine ⟨rfl, fun d h1 h2 => ?_, fun c h1 h2 => ?_, fun h1 h2 => ?_⟩
  · constructor <;>
      simp [resolvedResultSettings, resolvedMaskSettings, getSettings,
        spreadSettings, resultOverrides, maskOverrides, colorOverride,
        detectedColor, h1, h2]
  · simp only [detectedColor] at h1
    constructor <;>
      simp [resolvedResultSettings, resolvedMaskSettings, getSettings,
        spreadSettings, resultOverrides, maskOverrides, colorOverride,
        detectedColor, h1, h2]
  · simp only [detectedColor] at h1
    constructor <;>
      simp [resolvedResultSettings, resolvedMaskSettings, getSettings,
        spreadSettings, resultOverrides, maskOverrides, colorOverride,
        detectedColor, h1, h2]

/-- Witness for `color_precedence_both_passes`: detection succeeded with
`1A2B3C` while the request also supplies `color: "abcdef"`; both passes use
`1A2B3C`. -/
theorem color_precedence_both_passes_witness :
    (resolvedResultSettings
        { colorType := .green, color := some "abcdef", autoDetectColor := true }
        (some "1A2B3C")).color = "1A2B3C"
  ∧ (resolvedMaskSettings
        { colorType := .green, color := some "abcdef", autoDetectColor := true }
        (some "1A2B3C")).color = "1A2B3C" :=
  (color_precedence_both_passes
    { colorType := .green, color := some "abcdef", autoDetectColor := true }
    (some "1A2B3C")).2.1 "1A2B3C" rfl (by decide)

/-! ### Claims C6-C8: cleanup and external-process error handling -/

/-- C6: every temporary artifact is unlink-attempted on every exit path.  For
color detection, the `finally` block attempts exactly the frame files
created before the call returned (success or error alike); for
`processVideo`, the `finally` block attempts exactly the downloaded temp
input (when one was created) and the uploaded file (when one exists); and in
both functions the call's result is unchanged whatever set of `fs.unlink`
calls fails — unlink failures are swallowed, never surfaced. -/
theorem temp_cleanup_every_exit_path (denv : DetectStepEnv)
    (venv : VideoRequestEnv) (f g : String → Bool) :
    (findDominantChromaColorRun denv).unlinkAttempts
      = (findDominantChromaColorRun denv).createdFrames
  ∧ (findDominantChromaColorRun { denv with unlinkFails := f }).result
      = (findDominantChromaColorRun { denv with unlinkFails := g }).result
  ∧ (processVideoRun venv).unlinkAttempts
      = (processVideoRun venv).createdTempInput.toList
          ++ venv.uploadedFilePath.toList
  ∧ (processVideoRun { venv with unlinkFails := f }).result
      = (processVideoRun { venv with unlinkFails := g }).result :=
  ⟨rfl, rfl, rfl, rfl⟩

/-- C7: the duration probe resolves with the fixed 5-second fallback on spawn
failure, on any non-zero exit, and on unparsable output; and whenever the
parsed value is a duration (nonnegative) the returned value is positive — in
every case a value is returned, never an error. -/
theorem getVideoDuration_fallback :
    getVideoDuration .spawnFailed = 5
  ∧ (∀ code parsed, code ≠ 0 → getVideoDuration (.exited code parsed) = 5)
  ∧ (∀ code, getVideoDuration (.exited code none) = 5)
  ∧ (∀ code v, 0 ≤ v → 0 < getVideoDuration (.exited code (some v))) := by
  refine ⟨rfl, fun code parsed h => ?_, fun code => ?_, fun code v hv => ?_⟩
  · simp [getVideoDuration, h]
  · by_cases h : code = 0 <;> simp [getVideoDuration, h]
  · by_cases h : code = 0
    · by_cases hv0 : v = 0
      · simp [getVideoDuration, h, hv0]
      · simp [getVideoDuration, h, hv0]
        exact lt_of_le_of_ne hv (Ne.symm hv0)
    · simp [getVideoDuration, h]

/-- Witness for `getVideoDuration_fallback`: non-zero exit and unparsable
output both give 5; exit 0 with parsed duration 2.5 gives a positive value. -/
theorem getVideoDuration_fallback_witness :
    getVideoDuration (.exited 1 (some 7)) = 5
  ∧ getVideoDuration (.exited 0 none) = 5
  ∧ 0 < getVideoDuration (.exited 0 (some 2.5)) :=
  ⟨getVideoDuration_fallback.2.1 1 (some 7) (by norm_num),
   getVideoDuration_fallback.2.2.1 0,
   getVideoDuration_fallback.2.2.2 0 2.5 (by norm_num)⟩

/-- C8: the process runner resolves exactly when the spawned binary exits 0;
a non-zero exit rejects with the error text carrying both the exit code and
the full captured stderr (concretely, exit 1 with stderr `no such filter`),
and a spawn failure rejects with the spawn error; each run consumes a single
spawn outcome — no retry. -/
theorem runFfmpegCommand_spec :
    (∀ o, runFfmpegCommand o = .ok () ↔ ∃ s, o = .exited 0 s)
  ∧ (∀ code s, code ≠ 0 → runFfmpegCommand (.exited code s)
      = .error ("FFmpeg exited with code " ++ toString code ++ ": " ++ s))
  ∧ runFfmpegCommand (.exited 1 "no such filter")
      = .error "FFmpeg exited with code 1: no such filter"
  ∧ (∀ msg, runFfmpegCommand (.spawnFailed msg) = .error msg) := by
  refine ⟨fun o => ?_, fun code s h => ?_, rfl, fun msg => rfl⟩
  · cases o with
    | spawnFailed msg => simp [runFfmpegCommand]
    | exited code s =>
        by_cases h : code = 0 <;>
          simp [runFfmpegCommand, h, ffmpegExitMessage]
  · simp [runFfmpegCommand, h, ffmpegExitMessage]

/-- Witness for `runFfmpegCommand_spec`: exit code 2 with stderr `oops`
rejects with a message carrying both. -/
theorem runFfmpegCommand_spec_witness :
    runFfmpegCommand (.exited 2 "oops")
      = .error ("FFmpeg exited with code " ++ toString (2 : Int) ++ ": " ++ "oops") :=
  runFfmpegCommand_spec.2.1 2 "oops" (by norm_num)

/-! ### Claims C4, C5, C9, C10: color detection and hex rendering -/

/-- C4: the per-frame detector skips every pixel with all channels below 30
or all channels above 240 (a frame of only such pixels yields nothing),
quantizes each remaining channel to `⌊v/8⌋*8` (so `(103, 250, 12)` votes as
`(96, 248, 8)`), tallies votes per quantized key (the count of each key is
exactly the number of qualifying pixels quantizing to it), and returns a
bucket carrying the maximal count — or nothing exactly when no pixel
qualified. -/
theorem analyzeFrameColors_spec (pixels : List RGB) :
    quantizeRGB ⟨103, 250, 12⟩ = ⟨96, 248, 8⟩
  ∧ ((∀ p ∈ pixels, isSkipped p = true) → analyzeFrameColors pixels = none)
  ∧ (∀ key, lookupCount key (colorMap pixels)
      = countKey key ((pixels.filter (fun p => !isSkipped p)).map quantizeRGB))
  ∧ (∀ c, analyzeFrameColors pixels = some c →
      ∃ n, (c, n) ∈ colorMap pixels ∧ 0 < n ∧ ∀ e ∈ colorMap pixels, e.2 ≤ n)
  ∧ (analyzeFrameColors pixels = none → colorMap pixels = []) := by
  refine ⟨by decide, fun h => ?_, fun key => ?_, fun c h => firstMax_is_max h,
    fun h => ?_⟩
  · unfold analyzeFrameColors colorMap
    rw [colorMapFrom_all_skipped _ h]
    rfl
  · simpa [lookupCount] using lookupCount_colorMapFrom pixels [] key
  · have hpos : ∀ e ∈ colorMap pixels, 0 < e.2 :=
      colorMapFrom_pos (by simp)
    have hzero := firstMax_eq_none h
    cases hcm : colorMap pixels with
    | nil => rfl
    | cons e rest =>
        have hmem : e ∈ colorMap pixels := by
          rw [hcm]
          exact List.mem_cons_self e rest
        have h1 := hpos e hmem
        have h2 := hzero e hmem
        omega

/-- Witness for `analyzeFrameColors_spec`: a frame of one near-black and one
near-white pixel detects nothing; a frame of two `(100, 200, 50)` pixels has
`(96, 200, 48)` as a maximal bucket. -/
theorem analyzeFrameColors_spec_witness :
    analyzeFrameColors [⟨10, 10, 10⟩, ⟨250, 250, 250⟩] = none
  ∧ ∃ n, ((⟨96, 200, 48⟩ : RGB), n) ∈ colorMap [⟨100, 200, 50⟩, ⟨100, 200, 50⟩]
      ∧ 0 < n ∧ ∀ e ∈ colorMap [⟨100, 200, 50⟩, ⟨100, 200, 50⟩], e.2 ≤ n :=
  ⟨(analyzeFrameColors_spec _).2.1 (by decide),
   (analyzeFrameColors_spec _).2.2.2.1 _ (by decide)⟩

/-- C5: aggregate detection analyzes the frames sampled at 5%, 25% and 50%,
tallies per-frame detections by upper-case hex value (each hex's count is the
number of sampled frames that detected it), returns a hex whose count is
maximal with ties broken by first-seen order (strictly greater than every
earlier entry, at least every later one), returns nothing when no frame
yielded a color, and on the vote multiset `{1A2B3C: 2, 00FF00: 1}` returns
`1A2B3C`. -/
theorem findDominantChromaColor_spec (frameAt : Nat → List RGB) :
    findDominantChromaColor frameAt
      = firstMax (colorCounts
          ([5, 25, 50].map (fun p => analyzeFrameColors (frameAt p))))
  ∧ (∀ k, lookupCount k (colorCounts
        (samplePercentages.map (fun p => analyzeFrameColors (frameAt p))))
      = countKey k ((samplePercentages.map
          (fun p => analyzeFrameColors (frameAt p))).filterMap
          (fun d => d.map rgbToHex)))
  ∧ (∀ hex, findDominantChromaColor frameAt = some hex →
      ∃ mPre n mPost,
        colorCounts (samplePercentages.map (fun p => analyzeFrameColors (frameAt p)))
          = mPre ++ (hex, n) :: mPost
        ∧ 0 < n ∧ (∀ e ∈ mPre, e.2 < n) ∧ (∀ e ∈ mPost, e.2 ≤ n))
  ∧ ((∀ p ∈ samplePercentages, analyzeFrameColors (frameAt p) = none) →
      findDominantChromaColor frameAt = none)
  ∧ colorCounts [some ⟨26, 43, 60⟩, some ⟨0, 255, 0⟩, some ⟨26, 43, 60⟩]
      = [("1A2B3C", 2), ("00FF00", 1)]
  ∧ firstMax [("1A2B3C", 2), ("00FF00", 1)] = some "1A2B3C" := by
  refine ⟨rfl, fun k => ?_, fun hex h => firstMax_eq_some h, fun h => ?_,
    by decide, by decide⟩
  · simpa [lookupCount] using lookupCount_colorCountsFrom _ [] k
  · unfold findDominantChromaColor colorCounts
    rw [colorCountsFrom_all_none]
    · rfl
    · intro d hd
      rcases List.mem_map.mp hd with ⟨p, hp, rfl⟩
      exact h p hp

/-- Witness for `findDominantChromaColor_spec`: empty frames detect nothing;
constant `(100, 200, 50)` frames detect `60C830` as the dominant entry. -/
theorem findDominantChromaColor_spec_witness :
    findDominantChromaColor (fun _ => []) = none
  ∧ ∃ mPre n mPost,
      colorCounts (samplePercentages.map (fun p =>
          analyzeFrameColors ((fun _ => [⟨100, 200, 50⟩]) p)))
        = mPre ++ ("60C830", n) :: mPost
      ∧ 0 < n ∧ (∀ e ∈ mPre, e.2 < n) ∧ (∀ e ∈ mPost, e.2 ≤ n) :=
  ⟨(findDominantChromaColor_spec _).2.2.2.1 (fun _ _ => rfl),
   (findDominantChromaColor_spec _).2.2.1 "60C830" (by decide)⟩

/-- C9: `rgbToHex` is total on RGB triples, clamps each channel to [0,255],
and always produces exactly 6 upper-case hexadecimal characters; in
particular `(0,255,0) ↦ "00FF00"` and `(300,-5,128) ↦ "FF0080"`. -/
theorem rgbToHex_spec (p : RGB) :
    rgbToHex ⟨0, 255, 0⟩ = "00FF00"
  ∧ rgbToHex ⟨300, -5, 128⟩ = "FF0080"
  ∧ (rgbToHex p).length = 6
  ∧ (rgbToHex p).data.all isUpperHexDigit = true := by
  refine ⟨by decide, by decide, ?_, ?_⟩
  · show (rgbToHex p).data.length = 6
    rw [rgbToHex_data]
    simp [toHexByte_length]
  · rw [rgbToHex_data, List.all_append, List.all_append,
      toHexByte_upperHex, toHexByte_upperHex, toHexByte_upperHex]
    rfl

/-- C10: a hex color returned by aggregate detection on byte-valued frames
encodes three channels that are multiples of 8, hence at most 248 (`F8`);
consequently it can never equal the preset colors `00FF00` or `0000FF`,
whose saturated channels would require the value 255. -/
theorem detected_color_is_quantized (frameAt : Nat → List RGB) (hex : String)
    (hbytes : ∀ p ∈ samplePercentages, ∀ px ∈ frameAt p, byteRange px)
    (hdet : findDominantChromaColor frameAt = some hex) :
    ∃ c : RGB, hex = rgbToHex c
      ∧ (8 ∣ c.r ∧ 0 ≤ c.r ∧ c.r ≤ 248)
      ∧ (8 ∣ c.g ∧ 0 ≤ c.g ∧ c.g ≤ 248)
      ∧ (8 ∣ c.b ∧ 0 ≤ c.b ∧ c.b ≤ 248)
      ∧ hex ≠ "00FF00" ∧ hex ≠ "0000FF" := by
  obtain ⟨n, hmem, hpos, hmax⟩ := firstMax_is_max hdet
  rcases mem_colorCountsFrom hmem with ⟨n', h1⟩ | ⟨c, hc, hhex⟩
  · simp at h1
  · rcases List.mem_map.mp hc with ⟨p, hp, hpc⟩
    obtain ⟨n₂, hmem₂, -, -⟩ := firstMax_is_max hpc
    rcases mem_colorMapFrom hmem₂ with ⟨n₃, h3⟩ | ⟨px, hpx, hskip, hquant⟩
    · simp at h3
    · have hbr := hbytes p hp px hpx
      obtain ⟨hr0, hr1, hg0, hg1, hb0, hb1⟩ := hbr
      have hr := quantizeChannel_spec hr0 hr1
      have hg := quantizeChannel_spec hg0 hg1
      have hb := quantizeChannel_spec hb0 hb1
      have hcq : c = quantizeRGB px := hquant.symm
      subst hcq
      have hner := rgbToHex_ne_presets (c := quantizeRGB px)
        ⟨hr.2.1, hr.2.2⟩ ⟨hg.2.1, hg.2.2⟩ ⟨hb.2.1, hb.2.2⟩
      have hhex2 : hex = rgbToHex (quantizeRGB px) := hhex
      refine ⟨quantizeRGB px, hhex2, ⟨hr.1, hr.2.1, hr.2.2⟩,
        ⟨hg.1, hg.2.1, hg.2.2⟩, ⟨hb.1, hb.2.1, hb.2.2⟩, ?_, ?_⟩
      · rw [hhex2]; exact hner.1
      · rw [hhex2]; exact hner.2

/-- Witness for `detected_color_is_quantized`: constant `(100, 200, 50)`
byte-valued frames detect `60C830`, whose channels `(96, 200, 48)` are
multiples of 8. -/
theorem detected_color_is_quantized_witness :
    ∃ c : RGB, "60C830" = rgbToHex c
      ∧ (8 ∣ c.r ∧ 0 ≤ c.r ∧ c.r ≤ 248)
      ∧ (8 ∣ c.g ∧ 0 ≤ c.g ∧ c.g ≤ 248)
      ∧ (8 ∣ c.b ∧ 0 ≤ c.b ∧ c.b ≤ 248)
      ∧ ("60C830" : String) ≠ "00FF00" ∧ ("60C830" : String) ≠ "0000FF" :=
  detected_color_is_quantized (fun _ => [⟨100, 200, 50⟩]) "60C830"
    (by decide) (by decide)

end VideoBg
